import Mathlib

/-!
Shallow embedding of the account service of the 3angleTech web API
(`AccountService` in the security module), together with the collaborators
it uses: the Users model of the relational store, the credential
verifier (`common/crypto`), the JWT token service, and the small
`isNil` utility.  Store state is passed explicitly as a list of user
records; every service operation also reports the trace of store
operations it performed, so that read/write framing facts are statable.
-/

namespace ThreeAngleApi

/-- JS `Date` values, abstracted to a timestamp. -/
abbrev Time := Nat

/-- The `User` record of the data layer: identity plus audit fields
(spec section 3). -/
structure User where
  id : Int
  username : String
  email : String
  password : String
  firstName : String
  active : Bool
  createdAt : Time
  updatedAt : Time
  createdBy : Int
  updatedBy : Int
deriving Repr, DecidableEq

/-- Source type `Partial<User>`: every field optional (absent = the JS
property is not set / undefined). -/
structure UserPatch where
  id : Option Int := none
  username : Option String := none
  email : Option String := none
  password : Option String := none
  firstName : Option String := none
  active : Option Bool := none
  createdAt : Option Time := none
  updatedAt : Option Time := none
  createdBy : Option Int := none
  updatedBy : Option Int := none
deriving Repr, DecidableEq

/-- The columns of the Users model, the legal values of the dynamic
`field` string of `findByField`. -/
inductive UserField
  | id | username | email | password | firstName | active
  | createdAt | updatedAt | createdBy | updatedBy
deriving Repr, DecidableEq

/-- A value stored in a column (source: sequelize `WhereValue`);
`null` stands for the JS null/undefined value. -/
inductive Value
  | int (i : Int)
  | str (s : String)
  | bool (b : Bool)
  | time (t : Time)
  | null
deriving Repr, DecidableEq

/-- Column projection of a user record. -/
def User.getField (u : User) : UserField → Value
  | .id => .int u.id
  | .username => .str u.username
  | .email => .str u.email
  | .password => .str u.password
  | .firstName => .str u.firstName
  | .active => .bool u.active
  | .createdAt => .time u.createdAt
  | .updatedAt => .time u.updatedAt
  | .createdBy => .int u.createdBy
  | .updatedBy => .int u.updatedBy

/-- Lift an optional string (a possibly absent JS property) to a column
value for a where clause. -/
def optStr : Option String → Value
  | some s => .str s
  | none => .null

/-- Modelled from the spec: `isNil` of `common/utils` (not under src/),
the standard null-or-undefined test used throughout the code base
(`findOne(predicate) -> record|null`, section 6, is tested with it). -/
def isNil {α : Type} : Option α → Bool := Option.isNone

namespace Crypto

/-- Modelled from the spec: `hash(secret) -> digest` of the Credential
Verifier (section 4.1, `encrypt` of `common/crypto`, not under src/): a
deterministic transform of the secret whose output is a digest distinct
from the plaintext; modelled as a tagged copy of the secret, which keeps
it deterministic and verifiable. -/
def encrypt (secret : String) : String := "$2b$" ++ secret

/-- Modelled from the spec: `verify(secret, digest) -> bool` of the
Credential Verifier (section 4.1): true iff `secret` hashes to `digest`
under the same transform. -/
def verify (secret digest : String) : Bool := encrypt secret == digest

end Crypto

/-- Decoded claims of a JWT (spec section 4.2): subject id and grants;
the subject id may be absent. -/
structure JwtClaims where
  userId : Option Int
  grants : List String := []
deriving Repr, DecidableEq

/-- Failure kinds of the token service (spec section 4.2). -/
inductive TokenError
  | invalidToken
  | expiredToken
deriving Repr, DecidableEq

/-- Modelled from the spec: a signed token (section 3), whose validity
is determined solely by signature and expiry at verification time;
modelled as its decoded claims plus signature and expiry status. -/
structure Token where
  claims : JwtClaims
  signatureValid : Bool
  expired : Bool
deriving Repr, DecidableEq

namespace JwtTokenService

/-- Modelled from the spec: `verify(token, secret)` of the token service
(section 4.2, `jwt-token.service`, not under src/): fails with
`InvalidToken` when the signature is invalid, with `ExpiredToken` when
past expiry, and otherwise returns the decoded claims. -/
def verify (token : Token) (_secret : String) : Except TokenError JwtClaims :=
  if !token.signatureValid then .error .invalidToken
  else if token.expired then .error .expiredToken
  else .ok token.claims

end JwtTokenService

/-- Payload of an `InvalidRequestError` (source `common/error`, not
under src/): the fields the service passes at each throw site. -/
structure ErrorInfo where
  message : String
  name : String
  httpStatusCode : Option Nat := none
deriving Repr, DecidableEq

/-- Errors surfaced by the account service: an `InvalidRequestError`
with its payload, a plain JS `Error` with its message, or a token
service error propagated unchanged. -/
inductive ServiceError
  | invalidRequest (info : ErrorInfo)
  | error (message : String)
  | tokenError (e : TokenError)
deriving Repr, DecidableEq

/-- One call to the account store, as recorded in an operation trace.
`findOne` is a read; `update` and `create` are writes. -/
inductive StoreOp
  | findOne (field : UserField) (value : Value)
  | update (patch : UserPatch) (whereId : Option Int)
  | create (patch : UserPatch)
deriving Repr, DecidableEq

/-- Whether a store operation writes to the store. -/
def StoreOp.isWrite : StoreOp → Bool
  | .findOne _ _ => false
  | .update _ _ => true
  | .create _ => true

/-- Result of the store `update`, per the spec section 6 collaborator
contract `update(partial, predicate) -> [affectedCount, rows]`.  The
service indexes `result[1]` and nil-tests it, so the rows slot is typed
as an `Option`; the store honours `returning: true` and always fills it
with the (possibly empty) array of affected rows. -/
structure UpdateResult where
  affectedCount : Nat
  rows : Option (List User)
deriving Repr, DecidableEq

/-- Overwrite the fields of a record that are present in a patch. -/
def applyPatch (u : User) (p : UserPatch) : User :=
  { id := p.id.getD u.id
    username := p.username.getD u.username
    email := p.email.getD u.email
    password := p.password.getD u.password
    firstName := p.firstName.getD u.firstName
    active := p.active.getD u.active
    createdAt := p.createdAt.getD u.createdAt
    updatedAt := p.updatedAt.getD u.updatedAt
    createdBy := p.createdBy.getD u.createdBy
    updatedBy := p.updatedBy.getD u.updatedBy }

/-- A record built by the store from a create payload; `autoId` is the
id the store assigns when the payload carries none. -/
def buildUser (p : UserPatch) (autoId : Int) : User :=
  { id := p.id.getD autoId
    username := p.username.getD ""
    email := p.email.getD ""
    password := p.password.getD ""
    firstName := p.firstName.getD ""
    active := p.active.getD false
    createdAt := p.createdAt.getD 0
    updatedAt := p.updatedAt.getD 0
    createdBy := p.createdBy.getD 0
    updatedBy := p.updatedBy.getD 0 }

namespace Users

/-- Store contract (spec section 6): `findOne(predicate) -> record|null`,
the first record whose column equals the value. -/
def findOne (store : List User) (field : UserField) (value : Value) : Option User :=
  store.find? (fun u => u.getField field == value)

/-- Store contract (spec section 6):
`update(partial, predicate) -> [affectedCount, rows]` with the
`where id = whereId` predicate the service always passes; returns the
new store and the result pair. -/
def update (store : List User) (p : UserPatch) (whereId : Option Int) :
    List User × UpdateResult :=
  let hits := fun u : User => some u.id == whereId
  let newStore := store.map (fun u => if hits u then applyPatch u p else u)
  let rows := newStore.filter hits
  (newStore, { affectedCount := (store.filter hits).length, rows := some rows })

/-- Store contract (spec section 6): `create(record) -> record|null`;
`ok` is the store collaborator behaviour on this call: persistence
succeeds (appending the built record) or fails (returning null). -/
def create (store : List User) (ok : Bool) (p : UserPatch) :
    List User × Option User :=
  if ok then
    let u := buildUser p (Int.ofNat store.length + 1)
    (store ++ [u], some u)
  else (store, none)

end Users

/-- The credentials pair handed to `AccountService.verify`. -/
structure Credentials where
  username : String
  password : String
deriving Repr, DecidableEq

namespace AccountService

/-- `AccountService.verify(credentials)`: look up by username, throw
`INVALID_CREDENTIALS` when absent, check the secret against the stored
hash, throw the identical `INVALID_CREDENTIALS` on mismatch, otherwise
return the account. -/
def verify (store : List User) (credentials : Credentials) : Except ServiceError User :=
  match Users.findOne store .username (.str credentials.username) with
  | none =>
      .error (.invalidRequest
        { message := "Invalid credentials.", name := "INVALID_CREDENTIALS" })
  | some user =>
      let valid := Crypto.verify credentials.password user.password
      if !valid then
        .error (.invalidRequest
          { message := "Invalid credentials.", name := "INVALID_CREDENTIALS" })
      else
        .ok user

/-- `AccountService.find(userId)`: look up by id, throw `NOT_FOUND` with
a 404 hint when absent. -/
def find (store : List User) (userId : Int) : Except ServiceError User :=
  match Users.findOne store .id (.int userId) with
  | none =>
      .error (.invalidRequest
        { httpStatusCode := some 404
          message := "Account not found."
          name := "NOT_FOUND" })
  | some user => .ok user

/-- `AccountService.findByField(field, value)`: generic lookup returning
the record, or null (here `none`) when absent — never an error. -/
def findByField (store : List User) (field : UserField) (value : Value) : Option User :=
  match Users.findOne store field value with
  | none => none
  | some user => some user

/-- Outcome of `activate`: the result, the store after the call, and
the trace of store operations performed. -/
structure ActivateOutcome where
  result : Except ServiceError Unit
  store : List User
  trace : List StoreOp
deriving Repr

/-- `AccountService.activate(token)`: verify the token with the
access-token secret, throw when the decoded claims carry no user id,
otherwise update `active := true` on the account with that id and
nil-test `result[1]` (the rows slot of the store result). -/
def activate (store : List User) (accessTokenSecret : String) (token : Token) :
    ActivateOutcome :=
  match JwtTokenService.verify token accessTokenSecret with
  | .error e => { result := .error (.tokenError e), store := store, trace := [] }
  | .ok jwtToken =>
      if isNil jwtToken.userId then
        { result := .error (.error "Token doesn\x27t have the user ID set")
          store := store
          trace := [] }
      else
        let userPatch : UserPatch := { active := some true }
        let (newStore, result) := Users.update store userPatch jwtToken.userId
        let affectedRows : Option (List User) := result.rows
        if isNil affectedRows then
          { result := .error (.error "User not found")
            store := newStore
            trace := [.update userPatch jwtToken.userId] }
        else
          { result := .ok ()
            store := newStore
            trace := [.update userPatch jwtToken.userId] }

/-- `AccountService.prepareUserPartialForCreate`: stamp audit fields
with the current date and the creating actor, force inactive, and hash
the secret.  The source assigns `encrypt(newUserPartial.password)`
unconditionally; `encrypt` is external and its behaviour on an absent
secret is out of scope, so the embedding hashes the secret when
present. -/
def prepareUserPartialForCreate (p : UserPatch) (createdBy : Int) (currentDate : Time) :
    UserPatch :=
  { p with
    createdAt := some currentDate
    updatedAt := some currentDate
    createdBy := some createdBy
    updatedBy := some createdBy
    active := some false
    password := p.password.map Crypto.encrypt }

/-- JS truthiness of an optional string: both an absent property and the
empty string are falsy. -/
def truthyStr : Option String → Bool
  | some s => s ≠ ""
  | none => false

/-- `AccountService.prepareUserPartialForUpdate`: stamp `updatedAt` and
`updatedBy`; the secret is hashed only under `if (userPartial.password)`,
the JS truthiness test. -/
def prepareUserPartialForUpdate (p : UserPatch) (updatedBy : Int) (now : Time) :
    UserPatch :=
  let p1 := { p with updatedAt := some now, updatedBy := some updatedBy }
  if truthyStr p1.password then
    { p1 with password := p1.password.map Crypto.encrypt }
  else
    p1

/-- `AccountService.userExists`: look up by username first; when that
misses, look up by email; true when either lookup hits.  Also returns
the trace of the lookups performed. -/
def userExists (store : List User) (p : UserPatch) : Bool × List StoreOp :=
  let usernameOp := StoreOp.findOne .username (optStr p.username)
  match findByField store .username (optStr p.username) with
  | some _ => (true, [usernameOp])
  | none =>
      let emailOp := StoreOp.findOne .email (optStr p.email)
      match findByField store .email (optStr p.email) with
      | some _ => (true, [usernameOp, emailOp])
      | none => (false, [usernameOp, emailOp])

/-- Outcome of `create`: the result, the state of the caller-supplied
patch object after the call (JS passes the object by reference and the
prepare step assigns to its properties in place), the store, the store
operation trace, and the addresses activation email was sent to. -/
structure CreateOutcome where
  result : Except ServiceError Unit
  callerPatch : UserPatch
  store : List User
  trace : List StoreOp
  emails : List String
deriving Repr

/-- `AccountService.create(newUserPartial, createdBy)`: reject when a
user with the same username or email exists; otherwise prepare the
patch in place, persist it, throw when the store returns null, and on
success send the activation email.  `createOk` is the store collaborator
behaviour on the persist call (section 6: `create(record) -> record|null`);
`now` is the current date read by the prepare step. -/
def create (store : List User) (createOk : Bool) (now : Time)
    (newUserPatch : UserPatch) (createdBy : Int) : CreateOutcome :=
  let (exists?, lookupTrace) := userExists store newUserPatch
  if exists? then
    { result := .error
        (.error "An user account with the same username or email already exists")
      callerPatch := newUserPatch
      store := store
      trace := lookupTrace
      emails := [] }
  else
    let prepared := prepareUserPartialForCreate newUserPatch createdBy now
    let (newStore, createdUser) := Users.create store createOk prepared
    match createdUser with
    | none =>
        { result := .error (.error "Account not created")
          callerPatch := prepared
          store := newStore
          trace := lookupTrace ++ [.create prepared]
          emails := [] }
    | some user =>
        { result := .ok ()
          callerPatch := prepared
          store := newStore
          trace := lookupTrace ++ [.create prepared]
          emails := [user.email] }

/-- Outcome of `update`: the result, the state of the caller-supplied
patch object after the call (mutated in place by the prepare step), the
store, and the store operation trace. -/
structure UpdateOutcome where
  result : Except ServiceError Unit
  callerPatch : UserPatch
  store : List User
  trace : List StoreOp
deriving Repr

/-- `AccountService.update(userPartial, updatedBy)`: prepare the patch
in place, persist it with a `where id` predicate taken from the patch,
and nil-test the store result value (the whole `[affectedCount, rows]`
pair the store promise resolves with). -/
def update (store : List User) (now : Time) (userPatch : UserPatch) (updatedBy : Int) :
    UpdateOutcome :=
  let prepared := prepareUserPartialForUpdate userPatch updatedBy now
  let (newStore, result) := Users.update store prepared prepared.id
  let updatedUser : Option UpdateResult := some result
  if isNil updatedUser then
    { result := .error (.error "Failed to updated user")
      callerPatch := prepared
      store := newStore
      trace := [.update prepared prepared.id] }
  else
    { result := .ok ()
      callerPatch := prepared
      store := newStore
      trace := [.update prepared prepared.id] }

end AccountService

/-! Helper lemmas about the store lookup. -/

theorem findOne_eq_none_iff (store : List User) (f : UserField) (v : Value) :
    Users.findOne store f v = none ↔ ∀ u ∈ store, u.getField f ≠ v := by
  simp [Users.findOne, List.find?_eq_none]

theorem findOne_matches {store : List User} {f : UserField} {v : Value} {u : User}
    (h : Users.findOne store f v = some u) : u.getField f = v := by
  have := List.find?_some h
  simpa using this

theorem findOne_mem {store : List User} {f : UserField} {v : Value} {u : User}
    (h : Users.findOne store f v = some u) : u ∈ store :=
  List.mem_of_find?_eq_some h

theorem findOne_isSome_of_mem {store : List User} {f : UserField} {v : Value} {u : User}
    (hu : u ∈ store) (hm : u.getField f = v) :
    (Users.findOne store f v).isSome := by
  rw [Users.findOne, List.find?_isSome]
  exact ⟨u, hu, by simp [hm]⟩

theorem findByField_eq (store : List User) (f : UserField) (v : Value) :
    AccountService.findByField store f v = Users.findOne store f v := by
  unfold AccountService.findByField
  cases h : Users.findOne store f v <;> simp

/-- A sample stored account used by the concrete witnesses below. -/
def alice : User :=
  { id := 1
    username := "alice"
    email := "a@x.com"
    password := Crypto.encrypt "p"
    firstName := "Alice"
    active := false
    createdAt := 0
    updatedAt := 0
    createdBy := 1
    updatedBy := 1 }

/-- C1: a credentials pair whose username matches a stored account and
whose secret verifies against the stored hash makes `verify` return that
account; an unknown username and a known username with a non-verifying
secret both make `verify` fail with the identical
`INVALID_CREDENTIALS` kind and `Invalid credentials.` message, so the
caller cannot tell which check failed. -/
theorem verify_credentials_indistinguishable (store : List User)
    (credentials : Credentials) :
    (Users.findOne store .username (.str credentials.username) = none →
      AccountService.verify store credentials =
        .error (.invalidRequest
          { message := "Invalid credentials.", name := "INVALID_CREDENTIALS" })) ∧
    (∀ u, Users.findOne store .username (.str credentials.username) = some u →
      (Crypto.verify credentials.password u.password = true →
        AccountService.verify store credentials = .ok u) ∧
      (Crypto.verify credentials.password u.password = false →
        AccountService.verify store credentials =
          .error (.invalidRequest
            { message := "Invalid credentials.", name := "INVALID_CREDENTIALS" }))) := by
  refine ⟨fun h => ?_, fun u hu => ⟨fun hv => ?_, fun hv => ?_⟩⟩
  · simp [AccountService.verify, h]
  · simp [AccountService.verify, hu, hv]
  · simp [AccountService.verify, hu, hv]

/-- C1 witness: concrete store with one account and the three concrete
credential pairs, one per case of the theorem. -/
theorem verify_credentials_indistinguishable_witness :
    AccountService.verify [alice] { username := "alice", password := "p" } = .ok alice ∧
    AccountService.verify [alice] { username := "alice", password := "q" } =
      .error (.invalidRequest
        { message := "Invalid credentials.", name := "INVALID_CREDENTIALS" }) ∧
    AccountService.verify [alice] { username := "bob", password := "p" } =
      .error (.invalidRequest
        { message := "Invalid credentials.", name := "INVALID_CREDENTIALS" }) :=
  ⟨((verify_credentials_indistinguishable [alice]
      { username := "alice", password := "p" }).2 alice (by decide)).1 (by decide),
   ((verify_credentials_indistinguishable [alice]
      { username := "alice", password := "q" }).2 alice (by decide)).2 (by decide),
   (verify_credentials_indistinguishable [alice]
      { username := "bob", password := "p" }).1 (by decide)⟩

/-- C8: `find` on an id with no matching account fails with the
`NOT_FOUND` invalid-request error carrying the 404 hint; whatever it
returns has the requested id; and on an id with a matching account it
does return a record, whose id equals the requested id. -/
theorem find_not_found_or_id_matches (store : List User) (userId : Int) :
    ((∀ u ∈ store, u.id ≠ userId) →
      AccountService.find store userId =
        .error (.invalidRequest
          { httpStatusCode := some 404
            message := "Account not found."
            name := "NOT_FOUND" })) ∧
    (∀ u, AccountService.find store userId = .ok u → u.id = userId) ∧
    ((∃ u ∈ store, u.id = userId) →
      ∃ v, AccountService.find store userId = .ok v ∧ v.id = userId) := by
  refine ⟨?_, ?_, ?_⟩
  · intro h
    have hnone : Users.findOne store .id (.int userId) = none := by
      rw [findOne_eq_none_iff]
      intro u hu
      simp only [User.getField, ne_eq, Value.int.injEq]
      exact h u hu
    simp [AccountService.find, hnone]
  · intro u hu
    unfold AccountService.find at hu
    cases hfind : Users.findOne store .id (.int userId) with
    | none => rw [hfind] at hu; simp at hu
    | some v =>
        rw [hfind] at hu
        simp only [Except.ok.injEq] at hu
        subst hu
        have hv := findOne_matches hfind
        simpa [User.getField] using hv
  · rintro ⟨u, hu, hid⟩
    have hsome : (Users.findOne store .id (.int userId)).isSome :=
      findOne_isSome_of_mem hu (by simp [User.getField, hid])
    cases hfind : Users.findOne store .id (.int userId) with
    | none => rw [hfind] at hsome; simp at hsome
    | some v =>
        refine ⟨v, by simp [AccountService.find, hfind], ?_⟩
        have hv := findOne_matches hfind
        simpa [User.getField] using hv

/-- C8 witness: the empty store misses id 7 with the 404 error, and the
one-account store succeeds on id 1 with a record carrying that id. -/
theorem find_not_found_or_id_matches_witness :
    AccountService.find [] 7 =
      .error (.invalidRequest
        { httpStatusCode := some 404
          message := "Account not found."
          name := "NOT_FOUND" }) ∧
    (∃ v, AccountService.find [alice] 1 = .ok v ∧ v.id = 1) :=
  ⟨(find_not_found_or_id_matches [] 7).1 (by simp),
   (find_not_found_or_id_matches [alice] 1).2.2 ⟨alice, by simp, rfl⟩⟩

/-- C9: `findByField` returns none (the null of the source, not an
error — its return type has no error outcome) when no account matches;
any returned account is a stored account matching the field, and the
unique matching account is returned; in contrast, `find` on an absent
id fails with an invalid-request error. -/
theorem findByField_null_vs_find_throws (store : List User) (field : UserField)
    (value : Value) :
    ((∀ u ∈ store, u.getField field ≠ value) →
      AccountService.findByField store field value = none) ∧
    (∀ u, AccountService.findByField store field value = some u →
      u ∈ store ∧ u.getField field = value) ∧
    (∀ u, u ∈ store → u.getField field = value →
      (∀ w ∈ store, w.getField field = value → w = u) →
      AccountService.findByField store field value = some u) ∧
    (∀ userId : Int, (∀ u ∈ store, u.id ≠ userId) →
      ∃ info, AccountService.find store userId = .error (.invalidRequest info)) := by
  refine ⟨fun h => ?_, fun u hu => ?_, fun u hu hf huniq => ?_, fun userId h => ?_⟩
  · have hnone : Users.findOne store field value = none :=
      (findOne_eq_none_iff store field value).2 h
    simp [AccountService.findByField, hnone]
  · have hfind : Users.findOne store field value = some u := by
      rw [findByField_eq] at hu
      exact hu
    exact ⟨findOne_mem hfind, findOne_matches hfind⟩
  · have hsome : (Users.findOne store field value).isSome :=
      findOne_isSome_of_mem hu hf
    cases hfind : Users.findOne store field value with
    | none => rw [hfind] at hsome; simp at hsome
    | some v =>
        have hveq : v = u := huniq v (findOne_mem hfind) (findOne_matches hfind)
        subst hveq
        simp [AccountService.findByField, hfind]
  · have hnone : Users.findOne store .id (.int userId) = none := by
      rw [findOne_eq_none_iff]
      intro u hu
      simp only [User.getField, ne_eq, Value.int.injEq]
      exact h u hu
    exact ⟨{ httpStatusCode := some 404, message := "Account not found.", name := "NOT_FOUND" },
      by simp [AccountService.find, hnone]⟩

/-- C9 witness: a missing email value yields none, the unique matching
username yields the account, and `find` on the absent id 9 errors. -/
theorem findByField_null_vs_find_throws_witness :
    AccountService.findByField [alice] .email (.str "b@x.com") = none ∧
    AccountService.findByField [alice] .username (.str "alice") = some alice ∧
    (∃ info, AccountService.find [alice] 9 = .error (.invalidRequest info)) :=
  ⟨(findByField_null_vs_find_throws [alice] .email (.str "b@x.com")).1 (by decide),
   (findByField_null_vs_find_throws [alice] .username (.str "alice")).2.2.1 alice
     (by simp) (by decide) (by decide),
   (findByField_null_vs_find_throws [alice] .id (.int 9)).2.2.2 9 (by decide)⟩

/-- The modelled digest is never the plaintext it came from. -/
theorem encrypt_ne (s : String) : Crypto.encrypt s ≠ s := by
  intro h
  have hl := congrArg String.length h
  rw [Crypto.encrypt, String.length_append] at hl
  have h4 : ("$2b$" : String).length = 4 := rfl
  omega

/-- A duplicate username or email makes `userExists` answer true, with
the username lookup first and the email lookup only on a username
miss. -/
theorem userExists_of_dup (store : List User) (p : UserPatch) (un em : String)
    (hun : p.username = some un) (hem : p.email = some em)
    (hdup : (∃ u ∈ store, u.username = un) ∨ (∃ u ∈ store, u.email = em)) :
    AccountService.userExists store p =
      (true, [StoreOp.findOne .username (.str un)]) ∨
    AccountService.userExists store p =
      (true, [StoreOp.findOne .username (.str un), StoreOp.findOne .email (.str em)]) := by
  unfold AccountService.userExists
  rw [hun, hem]
  cases hfu : AccountService.findByField store .username (.str un) with
  | some w => left; simp [optStr, hfu]
  | none =>
      have hemail : ∃ u ∈ store, u.email = em := by
        rcases hdup with hU | hE
        · exfalso
          rcases hU with ⟨u, humem, hueq⟩
          have hs : (Users.findOne store .username (.str un)).isSome :=
            findOne_isSome_of_mem humem (by simp [User.getField, hueq])
          rw [← findByField_eq, hfu] at hs
          simp at hs
        · exact hE
      rcases hemail with ⟨u, humem, hueq⟩
      have hsome : (Users.findOne store .email (.str em)).isSome :=
        findOne_isSome_of_mem humem (by simp [User.getField, hueq])
      rw [← findByField_eq] at hsome
      cases hfe : AccountService.findByField store .email (.str em) with
      | none => rw [hfe] at hsome; simp at hsome
      | some w => right; simp [optStr, hfu, hfe]


/-- C3: `create` on a patch whose username or email is already taken
fails with the already-exists error, leaves the store unchanged,
performs no write operation, and looks the username up first (the email
lookup happens only after a username miss). -/
theorem create_duplicate_rejected (store : List User) (p : UserPatch)
    (createdBy : Int) (now : Time) (createOk : Bool) (un em : String)
    (hun : p.username = some un) (hem : p.email = some em)
    (hdup : (∃ u ∈ store, u.username = un) ∨ (∃ u ∈ store, u.email = em)) :
    (AccountService.create store createOk now p createdBy).result =
      .error (.error "An user account with the same username or email already exists") ∧
    (AccountService.create store createOk now p createdBy).store = store ∧
    (∀ op ∈ (AccountService.create store createOk now p createdBy).trace,
      op.isWrite = false) ∧
    ((AccountService.create store createOk now p createdBy).trace =
        [StoreOp.findOne .username (.str un)] ∨
     (AccountService.create store createOk now p createdBy).trace =
        [StoreOp.findOne .username (.str un), StoreOp.findOne .email (.str em)]) := by
  rcases userExists_of_dup store p un em hun hem hdup with hE | hE <;>
    simp [AccountService.create, hE, StoreOp.isWrite]

/-- C3 witness: creating a second alice (different email) against the
one-account store fails already-exists with the store untouched. -/
theorem create_duplicate_rejected_witness :
    (AccountService.create [alice] true 0
        { username := some "alice", email := some "b@y.com", password := some "x" }
        2).result =
      .error (.error "An user account with the same username or email already exists") ∧
    (AccountService.create [alice] true 0
        { username := some "alice", email := some "b@y.com", password := some "x" }
        2).store = [alice] :=
  ⟨(create_duplicate_rejected [alice]
      { username := some "alice", email := some "b@y.com", password := some "x" }
      2 0 true "alice" "b@y.com" rfl rfl (Or.inl ⟨alice, by simp, rfl⟩)).1,
   (create_duplicate_rejected [alice]
      { username := some "alice", email := some "b@y.com", password := some "x" }
      2 0 true "alice" "b@y.com" rfl rfl (Or.inl ⟨alice, by simp, rfl⟩)).2.1⟩

/-- C2: a `create` call that passes the uniqueness check hands the store
a record with both timestamps set to the current date, both audit actor
fields set to the creating actor, `active` forced to false whatever the
input carried, and the password replaced by the hash of the supplied
secret, which differs from the plaintext. -/
theorem create_stamps_and_hashes (store : List User) (p : UserPatch)
    (createdBy : Int) (now : Time) (createOk : Bool) (s : String)
    (hdup : (AccountService.userExists store p).1 = false)
    (hpw : p.password = some s) :
    (AccountService.create store createOk now p createdBy).trace =
      (AccountService.userExists store p).2 ++
        [StoreOp.create (AccountService.prepareUserPartialForCreate p createdBy now)] ∧
    (AccountService.prepareUserPartialForCreate p createdBy now).createdAt = some now ∧
    (AccountService.prepareUserPartialForCreate p createdBy now).updatedAt = some now ∧
    (AccountService.prepareUserPartialForCreate p createdBy now).createdBy = some createdBy ∧
    (AccountService.prepareUserPartialForCreate p createdBy now).updatedBy = some createdBy ∧
    (AccountService.prepareUserPartialForCreate p createdBy now).active = some false ∧
    (AccountService.prepareUserPartialForCreate p createdBy now).password =
      some (Crypto.encrypt s) ∧
    Crypto.encrypt s ≠ s := by
  rcases hU : AccountService.userExists store p with ⟨b, tr⟩
  have hb : b = false := by rw [hU] at hdup; exact hdup
  subst hb
  refine ⟨?_, ?_, ?_, ?_, ?_, ?_, ?_, encrypt_ne s⟩ <;>
    cases createOk <;>
    simp [AccountService.create, hU, Users.create,
      AccountService.prepareUserPartialForCreate, hpw]

/-- C2 witness: the scenario of the spec, creating alice with secret
`p` by actor 1 against the empty store at date 0. -/
theorem create_stamps_and_hashes_witness :
    (AccountService.create []  true 0
        { username := some "alice", email := some "a@x.com", password := some "p" }
        1).trace =
      (AccountService.userExists []
        { username := some "alice", email := some "a@x.com", password := some "p" }).2 ++
        [StoreOp.create (AccountService.prepareUserPartialForCreate
          { username := some "alice", email := some "a@x.com", password := some "p" } 1 0)] ∧
    (AccountService.prepareUserPartialForCreate
        { username := some "alice", email := some "a@x.com", password := some "p" }
        1 0).active = some false ∧
    (AccountService.prepareUserPartialForCreate
        { username := some "alice", email := some "a@x.com", password := some "p" }
        1 0).password = some (Crypto.encrypt "p") ∧
    Crypto.encrypt "p" ≠ "p" := by
  have h := create_stamps_and_hashes []
    { username := some "alice", email := some "a@x.com", password := some "p" }
    1 0 true "p" (by rfl) (by rfl)
  exact ⟨h.1, h.2.2.2.2.2.1, h.2.2.2.2.2.2.1, h.2.2.2.2.2.2.2⟩

/-- C4 (code bug evidence): activating with a valid token for id 7
against the empty store affects zero rows, yet the call returns
successfully and never raises the user-not-found error: the nil test on
`result[1]` inspects the affected-rows array of the store result, which
is an empty array — not nil — when zero rows are affected. -/
theorem activate_zero_rows_returns_ok :
    (Users.update [] { active := some true } (some 7)).2.affectedCount = 0 ∧
    (AccountService.activate [] "secret"
      { claims := { userId := some 7 }, signatureValid := true, expired := false }).result
      = .ok () ∧
    (AccountService.activate [] "secret"
      { claims := { userId := some 7 }, signatureValid := true, expired := false }).store
      = [] :=
  ⟨rfl, rfl, rfl⟩

/-- C5 (code bug evidence): the nil test in `update` inspects the whole
store result value, which the store promise always resolves with, so
`update` never fails — in particular it returns successfully against
the empty store, where zero rows are affected. -/
theorem update_never_fails :
    (∀ (store : List User) (now : Time) (p : UserPatch) (updatedBy : Int),
      (AccountService.update store now p updatedBy).result = .ok ()) ∧
    (AccountService.update [] 0 { id := some 7 } 2).result = .ok () ∧
    (Users.update []
      (AccountService.prepareUserPartialForUpdate { id := some 7 } 2 0)
      (some 7)).2.affectedCount = 0 := by
  refine ⟨fun store now p updatedBy => ?_, rfl, rfl⟩
  simp [AccountService.update, Users.update, isNil]

/-- C6: when the verified token carries no subject id, `activate` fails
with the missing-user-id error before touching the account store: the
store is unchanged and the trace of store operations is empty. -/
theorem activate_no_subject_fails_before_store (store : List User)
    (secret : String) (token : Token) (claims : JwtClaims)
    (hok : JwtTokenService.verify token secret = .ok claims)
    (hnone : claims.userId = none) :
    AccountService.activate store secret token =
      { result := .error (.error "Token doesn\x27t have the user ID set")
        store := store
        trace := [] } := by
  simp [AccountService.activate, hok, hnone, isNil]

/-- C6 witness: a concrete valid token with no subject id against the
one-account store. -/
theorem activate_no_subject_fails_before_store_witness :
    AccountService.activate [alice] "s"
        { claims := { userId := none }, signatureValid := true, expired := false } =
      { result := .error (.error "Token doesn\x27t have the user ID set")
        store := [alice]
        trace := [] } :=
  activate_no_subject_fails_before_store [alice] "s"
    { claims := { userId := none }, signatureValid := true, expired := false }
    { userId := none } rfl rfl

/-- The update preparation always stamps the update timestamp. -/
theorem prepareForUpdate_updatedAt (p : UserPatch) (updatedBy : Int) (now : Time) :
    (AccountService.prepareUserPartialForUpdate p updatedBy now).updatedAt = some now := by
  unfold AccountService.prepareUserPartialForUpdate
  cases hp : p.password with
  | none => simp [AccountService.truthyStr]
  | some s => by_cases hs : s = "" <;> simp [AccountService.truthyStr, hs]

/-- The update preparation always stamps the updating actor. -/
theorem prepareForUpdate_updatedBy (p : UserPatch) (updatedBy : Int) (now : Time) :
    (AccountService.prepareUserPartialForUpdate p updatedBy now).updatedBy = some updatedBy := by
  unfold AccountService.prepareUserPartialForUpdate
  cases hp : p.password with
  | none => simp [AccountService.truthyStr]
  | some s => by_cases hs : s = "" <;> simp [AccountService.truthyStr, hs]

/-- The update preparation hashes a present non-empty secret. -/
theorem prepareForUpdate_password_hashed (p : UserPatch) (updatedBy : Int) (now : Time)
    (s : String) (hs : p.password = some s) (hne : s ≠ "") :
    (AccountService.prepareUserPartialForUpdate p updatedBy now).password =
      some (Crypto.encrypt s) := by
  simp [AccountService.prepareUserPartialForUpdate, AccountService.truthyStr, hs, hne]

/-- The caller object after `update` is the record prepared for
update. -/
theorem update_callerPatch_eq (store : List User) (now : Time) (q : UserPatch)
    (updatedBy : Int) :
    (AccountService.update store now q updatedBy).callerPatch =
      AccountService.prepareUserPartialForUpdate q updatedBy now := by
  simp [AccountService.update, Users.update, isNil]

/-- C7 counterexample: an update carrying the present but empty-string
secret hands the store a record whose password is the plaintext empty
string, not its hash — the JS truthiness guard skips hashing for an
empty secret, so the claim fails at this input. -/
theorem update_empty_secret_persisted_unhashed :
    (AccountService.update [] 5 { id := some 1, password := some "" } 2).trace =
      [StoreOp.update
        (AccountService.update [] 5 { id := some 1, password := some "" } 2).callerPatch
        (some 1)] ∧
    (AccountService.update [] 5 { id := some 1, password := some "" } 2).callerPatch.password
      = some "" ∧
    ¬((AccountService.update [] 5 { id := some 1, password := some "" } 2).callerPatch.password
      = some (Crypto.encrypt "")) := by
  decide

/-- C7 (amended): every `update` hands the store a record stamped with
the current time and the updating actor; whenever a present non-empty
secret is in the patch, the handed record carries its hash, which
differs from the plaintext.  (A present empty-string secret is treated
as absent by the JS truthiness guard and persisted unchanged.) -/
theorem update_stamps_and_hashes (store : List User) (p : UserPatch)
    (updatedBy : Int) (now : Time) :
    (AccountService.update store now p updatedBy).trace =
      [StoreOp.update (AccountService.prepareUserPartialForUpdate p updatedBy now)
        (AccountService.prepareUserPartialForUpdate p updatedBy now).id] ∧
    (AccountService.prepareUserPartialForUpdate p updatedBy now).updatedAt = some now ∧
    (AccountService.prepareUserPartialForUpdate p updatedBy now).updatedBy = some updatedBy ∧
    (∀ s : String, p.password = some s → s ≠ "" →
      (AccountService.prepareUserPartialForUpdate p updatedBy now).password =
        some (Crypto.encrypt s) ∧ Crypto.encrypt s ≠ s) := by
  refine ⟨?_, prepareForUpdate_updatedAt p updatedBy now,
    prepareForUpdate_updatedBy p updatedBy now,
    fun s hs hne => ⟨prepareForUpdate_password_hashed p updatedBy now s hs hne, encrypt_ne s⟩⟩
  simp [AccountService.update, Users.update, isNil]

/-- C7 witness: a concrete update with the non-empty secret `x` at date
9 by actor 2: the handed record is stamped and carries the hash. -/
theorem update_stamps_and_hashes_witness :
    (AccountService.prepareUserPartialForUpdate
      { id := some 1, password := some "x" } 2 9).password = some (Crypto.encrypt "x") ∧
    (AccountService.prepareUserPartialForUpdate
      { id := some 1, password := some "x" } 2 9).updatedAt = some 9 := by
  have h := update_stamps_and_hashes [] { id := some 1, password := some "x" } 2 9
  exact ⟨(h.2.2.2 "x" rfl (by decide)).1, h.2.1⟩

/-- C10 counterexample: after an update whose patch carries the present
empty-string password, the caller object still holds the plaintext
empty string and not its hash — the truthiness guard skips hashing, so
the frozen claim (every present password replaced by its hash in the
caller object) fails at this input. -/
theorem update_empty_secret_caller_patch_unhashed :
    (AccountService.update [] 4 { id := some 2, password := some "" } 3).callerPatch.password
      = some "" ∧
    ¬((AccountService.update [] 4 { id := some 2, password := some "" } 3).callerPatch.password
      = some (Crypto.encrypt "")) := by
  decide

/-- C10 (amended): the caller-supplied patch object is mutated in
place: after a `create` that passes the uniqueness check the caller
object is exactly the prepared record (timestamps and actors stamped,
`active` false, password hashed), and it stays mutated even when the
store then fails the persist call; after any `update` the caller object
is exactly the record prepared for update, with `updatedAt` and
`updatedBy` overwritten and any present non-empty password replaced by
its hash (a present empty-string password is left unhashed by the JS
truthiness guard). -/
theorem caller_patch_mutated_in_place (store : List User) (p : UserPatch)
    (createdBy : Int) (now : Time) (createOk : Bool)
    (hdup : (AccountService.userExists store p).1 = false) :
    (AccountService.create store createOk now p createdBy).callerPatch =
      AccountService.prepareUserPartialForCreate p createdBy now ∧
    (AccountService.create store createOk now p createdBy).callerPatch.createdAt
      = some now ∧
    (AccountService.create store createOk now p createdBy).callerPatch.updatedAt
      = some now ∧
    (AccountService.create store createOk now p createdBy).callerPatch.createdBy
      = some createdBy ∧
    (AccountService.create store createOk now p createdBy).callerPatch.updatedBy
      = some createdBy ∧
    (AccountService.create store createOk now p createdBy).callerPatch.active
      = some false ∧
    (AccountService.create store createOk now p createdBy).callerPatch.password
      = p.password.map Crypto.encrypt ∧
    ((AccountService.create store false now p createdBy).result =
        .error (.error "Account not created") ∧
     (AccountService.create store false now p createdBy).callerPatch =
        AccountService.prepareUserPartialForCreate p createdBy now) ∧
    (∀ (q : UserPatch) (updatedBy : Int),
      (AccountService.update store now q updatedBy).callerPatch =
        AccountService.prepareUserPartialForUpdate q updatedBy now ∧
      (AccountService.update store now q updatedBy).callerPatch.updatedAt = some now ∧
      (AccountService.update store now q updatedBy).callerPatch.updatedBy = some updatedBy ∧
      (∀ s : String, q.password = some s → s ≠ "" →
        (AccountService.update store now q updatedBy).callerPatch.password =
          some (Crypto.encrypt s))) := by
  have hupd : ∀ (q : UserPatch) (updatedBy : Int),
      (AccountService.update store now q updatedBy).callerPatch =
        AccountService.prepareUserPartialForUpdate q updatedBy now ∧
      (AccountService.update store now q updatedBy).callerPatch.updatedAt = some now ∧
      (AccountService.update store now q updatedBy).callerPatch.updatedBy = some updatedBy ∧
      (∀ s : String, q.password = some s → s ≠ "" →
        (AccountService.update store now q updatedBy).callerPatch.password =
          some (Crypto.encrypt s)) := by
    intro q updatedBy
    refine ⟨update_callerPatch_eq store now q updatedBy, ?_, ?_, fun s hs hne => ?_⟩
    · rw [update_callerPatch_eq]; exact prepareForUpdate_updatedAt q updatedBy now
    · rw [update_callerPatch_eq]; exact prepareForUpdate_updatedBy q updatedBy now
    · rw [update_callerPatch_eq]; exact prepareForUpdate_password_hashed q updatedBy now s hs hne
  rcases hU : AccountService.userExists store p with ⟨b, tr⟩
  have hb : b = false := by rw [hU] at hdup; exact hdup
  subst hb
  refine ⟨?_, ?_, ?_, ?_, ?_, ?_, ?_, ⟨?_, ?_⟩, hupd⟩ <;>
    cases createOk <;>
    simp [AccountService.create, hU, Users.create,
      AccountService.prepareUserPartialForCreate]

/-- C10 witness: the concrete alice patch after a failing persist, and
a concrete update whose caller object carries the stamped date and the
hash of the non-empty secret. -/
theorem caller_patch_mutated_in_place_witness :
    (AccountService.create [] false 0
        { username := some "alice", email := some "a@x.com", password := some "p" }
        1).callerPatch =
      AccountService.prepareUserPartialForCreate
        { username := some "alice", email := some "a@x.com", password := some "p" } 1 0 ∧
    (AccountService.update [] 0 { id := some 1, password := some "x" } 2).callerPatch.updatedAt
      = some 0 ∧
    (AccountService.update [] 0 { id := some 1, password := some "x" } 2).callerPatch.password
      = some (Crypto.encrypt "x") := by
  have h := caller_patch_mutated_in_place []
    { username := some "alice", email := some "a@x.com", password := some "p" }
    1 0 false (by rfl)
  have hu := h.2.2.2.2.2.2.2.2 { id := some 1, password := some "x" } 2
  exact ⟨h.1, hu.2.1, hu.2.2.2 "x" rfl (by decide)⟩

end ThreeAngleApi
